import Mathlib

/-!
# Join-captcha bot: the verification session engine

A shallow embedding of `src/main.go` (with the configuration type of
`src/config.go`) and the properties of its per-requester state machine.

Modelling conventions.

* The bot's mutable state is the structure `Bot`: the session map `statusMap`,
  the table of timers ever created by `time.AfterFunc`, and the chronological
  record `calls` of every call made on the platform client (`gotgbot.Bot`).
* `statusMap` holds pointers to `status` values in the source; the only alias of
  such a pointer is the local variable of the running handler, so an in-place
  field update is an update of the map entry.
* Everything a handler reads from the outside world is an explicit input: the
  clock (`time.Now().Unix()`), the random source used by `rand.Shuffle`, and the
  result of the display call.  The results of the approve, decline and ban calls
  and of the display call made by the timeout callback are only ever written to
  the logger, so they are not inputs; logger output itself is not modelled.
* `sha256sum` is the library hash; it is the parameter `H` of every definition
  that uses it.
* A button press is taken to come from a message in a chat: `ctx.EffectiveChat` and
  `ctx.CallbackQuery.Message` are present.
* A handler ends in one of four ways, recorded in `Exit`.
* Timers carry no clock: a timer that is armed may fire at any later event.
-/

namespace Captcha

/-! ## Configuration (`src/config.go`) -/

/-- One element of `Config.Questions`. -/
structure Question where
  Question : String
  Answer : String
  Choices : List String
  deriving DecidableEq, Repr

/-- The message templates of `Config.Messages`.  `TimeoutError` is read by
`main.go` (line 137) although the struct in `config.go` does not declare it. -/
structure Messages where
  AskQuestion : String
  CorrectAnswer : String
  InvalidButton : String
  WrongAnswer : String
  TimeoutError : String
  deriving DecidableEq, Repr

/-- The configuration type.  `Timeout` is read by `main.go` (line 151) although the
struct in `config.go` does not declare it. -/
structure Config where
  BanTime : Int
  ChatID : Int
  Timeout : Int
  Messages : Messages
  Questions : List Question
  deriving DecidableEq, Repr

/-! ## Library behaviour used by the handlers -/

/-- Two's-complement wrap-around of a Go `int64` result. -/
def wrapInt64 (x : Int) : Int := (x + 2 ^ 63) % 2 ^ 64 - 2 ^ 63

/-- The text `fmt.Sprintf("%s%d", s, d)`. -/
def sprintfSD (s : String) (d : Int) : String := s ++ toString d

/-- The text of the verb `%02d` for a non-negative number. -/
def pad02 (n : Nat) : String := if n < 10 then "0" ++ toString n else toString n

/-- The text `fmt.Sprintf("%s\n\n%02d. %s", a, n, q)`. -/
def sprintfAsk (a : String) (n : Nat) (q : String) : String :=
  a ++ "\n\n" ++ pad02 n ++ ". " ++ q

/-- The closure passed to `rand.Shuffle`: exchange positions `i` and `j`. -/
def swapAt (xs : List String) (i j : Nat) : List String :=
  match xs[i]?, xs[j]? with
  | some a, some b => (xs.set i b).set j a
  | _, _ => xs

/-- The loop of `rand.Shuffle`: for `i` from the given bound down to `1`, draw
`j` in `[0, i]` and exchange positions `i` and `j`.  `rnd i` is the raw value
drawn at step `i`. -/
def shuffleLoop (rnd : Nat → Nat) : Nat → List String → List String
  | 0, xs => xs
  | i + 1, xs => shuffleLoop rnd i (swapAt xs (i + 1) (rnd (i + 1) % (i + 2)))

/-- The call `rand.Shuffle(len(choices), swap)`. -/
def shuffle (rnd : Nat → Nat) (xs : List String) : List String :=
  shuffleLoop rnd (xs.length - 1) xs

/-! ## State -/

/-- A `gotgbot.InlineKeyboardButton`. -/
structure Button where
  Text : String
  CallbackData : String
  deriving DecidableEq, Repr

/-- A call made on the platform client, with the arguments the source passes. -/
inductive Call where
  | SendMessage (chatId : Int) (text : String) (keyboard : List (List Button))
  | EditMessageText (text : String) (chatId msgId : Int) (inlineMessageId : String)
      (keyboard : List (List Button))
  | ApproveChatJoinRequest (chatId userId : Int)
  | DeclineChatJoinRequest (chatId userId : Int)
  | BanChatMember (chatId userId untilDate : Int)
  deriving DecidableEq, Repr

/-- The life of a `time.Timer` made by `time.AfterFunc`. -/
inductive TimerState where
  | armed
  | fired
  | stopped
  deriving DecidableEq, Repr

/-- A timer made at line 151: its duration in nanoseconds, the two values captured
by `timeoutFunc`, and its state. -/
structure Timer where
  duration : Int
  userId : Int
  msgId : Int
  state : TimerState
  deriving DecidableEq, Repr

/-- The struct `status`; `timer` is the position of the timer in `Bot.timers`. -/
structure status where
  startTime : Int
  questionIndex : Nat
  timer : Nat
  deriving DecidableEq, Repr

/-- The mutable state reachable from the struct `Bot`. -/
structure Bot where
  statusMap : Int → Option status
  timers : List Timer
  calls : List Call

/-- The state built by `NewBot`. -/
def NewBot : Bot := ⟨fun _ => none, [], []⟩

/-- How a handler invocation ends. -/
inductive Exit where
  | ok
  | err
  | panicked
  | blocked
  deriving DecidableEq, Repr

/-- The state a handler leaves behind and the way it ended: `ok` for `return nil`,
`err` for `return err`, `panicked` for an index out of range, `blocked` for the
receive on the nil channel `timer.C` in `stopStatusTimer`. -/
structure Outcome where
  bot : Bot
  exit : Exit

/-- Record a call made on the platform client. -/
def Bot.call (b : Bot) (c : Call) : Bot := { b with calls := b.calls ++ [c] }

/-- The statement `delete(bot.statusMap, userId)`. -/
def Bot.delete (b : Bot) (userId : Int) : Bot :=
  { b with statusMap := fun k => if k = userId then none else b.statusMap k }

/-- The statement `bot.statusMap[userId] = st`. -/
def Bot.store (b : Bot) (userId : Int) (st : status) : Bot :=
  { b with statusMap := fun k => if k = userId then some st else b.statusMap k }

/-- The call `time.AfterFunc(d, timeoutFunc(userId, msgId))`: the new handle and the
state with the timer armed. -/
def Bot.afterFunc (b : Bot) (d userId msgId : Int) : Nat × Bot :=
  (b.timers.length, { b with timers := b.timers ++ [⟨d, userId, msgId, .armed⟩] })

/-- The call `timer.Stop()`: `true` when this call stops the timer, `false` when the
timer has already fired or been stopped. -/
def Bot.stop (b : Bot) (h : Nat) : Bool × Bot :=
  match b.timers[h]? with
  | some t =>
    if t.state = .armed then (true, { b with timers := b.timers.set h { t with state := .stopped } })
    else (false, b)
  | none => (false, b)

/-! ## Handlers (`src/main.go`) -/

/-- The hash `sha256sum` applied to `fmt.Sprintf("%s%d", choice, startTime)`. -/
def token (H : String → String) (choice : String) (startTime : Int) : String :=
  H (sprintfSD choice startTime)

/-- The loop building `inlineKeyboardButtonsArr` (lines 116-122 and 212-218). -/
def inlineKeyboard (H : String → String) (choices : List String) (startTime : Int) :
    List (List Button) :=
  choices.map fun choice => [⟨choice, token H choice startTime⟩]

/-- The two statements that build `choices` (lines 111-112 and 209-210). -/
def shuffledChoices (rnd : Nat → Nat) (question : Question) : List String :=
  shuffle rnd (question.Answer :: question.Choices)

/-- The method `deleteStatusAndApprove`. -/
def deleteStatusAndApprove (cfg : Config) (userId : Int) (b : Bot) : Bot :=
  match b.statusMap userId with
  | some _ => (b.delete userId).call (.ApproveChatJoinRequest cfg.ChatID userId)
  | none => b

/-- The method `deleteStatusAndDecline`; `now` is `time.Now().Unix()`. -/
def deleteStatusAndDecline (cfg : Config) (now : Int) (userId : Int) (b : Bot) : Bot :=
  match b.statusMap userId with
  | some _ =>
    ((b.delete userId).call (.DeclineChatJoinRequest cfg.ChatID userId)).call
      (.BanChatMember cfg.ChatID userId (wrapInt64 (now + cfg.BanTime)))
  | none => b

/-- The method `stopStatusTimer`: `none` when the receive on `timer.C` is reached,
which blocks for ever because `AfterFunc` timers have a nil channel. -/
def stopStatusTimer (st : status) (b : Bot) : Option Bot :=
  match b.stop st.timer with
  | (true, b1) => some b1
  | (false, _) => none

/-- What `handleNewChatJoinRequest` reads from its context and the outside world. -/
structure JoinCtx where
  userId : Int
  now : Int
  rnd : Nat → Nat
  sent : Option Int

/-- The method `handleNewChatJoinRequest`.  `ctx.sent` is the id of the message
returned by `SendMessage`, or `none` when the call returns an error. -/
def handleNewChatJoinRequest (H : String → String) (cfg : Config) (ctx : JoinCtx) (b : Bot) :
    Outcome :=
  match cfg.Questions[0]? with
  | none => ⟨b, .panicked⟩
  | some question =>
    let choices := shuffledChoices ctx.rnd question
    let startTime := ctx.now
    let b1 := b.call (.SendMessage ctx.userId
      (sprintfAsk cfg.Messages.AskQuestion 1 question.Question)
      (inlineKeyboard H choices startTime))
    match ctx.sent with
    | none => ⟨b1, .err⟩
    | some msgId =>
      let (h, b2) := b1.afterFunc (wrapInt64 (cfg.Timeout * 1000000000)) ctx.userId msgId
      ⟨b2.store ctx.userId ⟨startTime, 0, h⟩, .ok⟩

/-- What `handleCallbackQuery` reads from its context and the outside world. -/
structure CallbackCtx where
  userId : Int
  chatId : Int
  msgId : Int
  inlineMessageId : String
  data : String
  rnd : Nat → Nat
  editFails : Bool
  now : Int

/-- The tail shared by the three failure branches and the wrong-answer branch:
`stopStatusTimer` followed by `deleteStatusAndDecline` and a return. -/
def stopAndDecline (cfg : Config) (ctx : CallbackCtx) (st : status) (b : Bot) (e : Exit) :
    Outcome :=
  match stopStatusTimer st b with
  | none => ⟨b, .blocked⟩
  | some b1 => ⟨deleteStatusAndDecline cfg ctx.now ctx.userId b1, e⟩

/-- The method `handleCallbackQuery`.  `ctx.editFails` says whether the one
`EditMessageText` call of the invocation returns an error. -/
def handleCallbackQuery (H : String → String) (cfg : Config) (ctx : CallbackCtx) (b : Bot) :
    Outcome :=
  match b.statusMap ctx.userId with
  | none =>
    let b1 := b.call (.EditMessageText cfg.Messages.InvalidButton ctx.chatId ctx.msgId "" [])
    ⟨b1, if ctx.editFails then .err else .ok⟩
  | some st =>
    match cfg.Questions[st.questionIndex]? with
    | none => ⟨b, .panicked⟩
    | some current =>
      let answer := token H current.Answer st.startTime
      if answer ≠ ctx.data then
        let b1 := b.call (.EditMessageText cfg.Messages.WrongAnswer ctx.chatId ctx.msgId
          ctx.inlineMessageId [])
        stopAndDecline cfg ctx st b1 (if ctx.editFails then .err else .ok)
      else if (st.questionIndex : Int) ≥ (cfg.Questions.length : Int) - 1 then
        let b1 := b.call (.EditMessageText cfg.Messages.CorrectAnswer ctx.chatId ctx.msgId
          ctx.inlineMessageId [])
        if ctx.editFails then stopAndDecline cfg ctx st b1 .err
        else
          match stopStatusTimer st b1 with
          | none => ⟨b1, .blocked⟩
          | some b2 => ⟨deleteStatusAndApprove cfg ctx.userId b2, .ok⟩
      else
        let st1 : status := { st with questionIndex := st.questionIndex + 1 }
        let b1 := b.store ctx.userId st1
        match cfg.Questions[st1.questionIndex]? with
        | none => ⟨b1, .panicked⟩
        | some question =>
          let choices := shuffledChoices ctx.rnd question
          let b2 := b1.call (.EditMessageText
            (sprintfAsk cfg.Messages.AskQuestion (st1.questionIndex + 1) question.Question)
            ctx.chatId ctx.msgId ctx.inlineMessageId (inlineKeyboard H choices st1.startTime))
          if ctx.editFails then stopAndDecline cfg ctx st1 b2 .err
          else ⟨b2, .ok⟩

/-- The closure returned by `timeoutFunc(userId, msgId)` (lines 135-145). -/
def timeoutFunc (cfg : Config) (now : Int) (userId msgId : Int) (b : Bot) : Bot :=
  deleteStatusAndDecline cfg now userId
    (b.call (.EditMessageText cfg.Messages.TimeoutError userId msgId "" []))

/-- The runtime firing timer `h`: an armed timer becomes fired and its function
runs; a timer that was stopped or has fired does nothing. -/
def fireTimer (cfg : Config) (now : Int) (h : Nat) (b : Bot) : Bot :=
  match b.timers[h]? with
  | some t =>
    if t.state = .armed then
      timeoutFunc cfg now t.userId t.msgId
        { b with timers := b.timers.set h { t with state := .fired } }
    else b
  | none => b

/-! ## Sequential event model -/

/-- An event delivered to the bot: a join request, a button press, or the runtime
firing a timer.  Each handler runs to completion before the next event. -/
inductive Event where
  | join (ctx : JoinCtx)
  | callback (ctx : CallbackCtx)
  | fire (now : Int) (h : Nat)

/-- The state after one event. -/
def step (H : String → String) (cfg : Config) : Event → Bot → Bot
  | .join ctx, b => (handleNewChatJoinRequest H cfg ctx b).bot
  | .callback ctx, b => (handleCallbackQuery H cfg ctx b).bot
  | .fire now h, b => fireTimer cfg now h b

/-- The states reachable from the state built by `NewBot`.  The two dispatcher filters
(`cjr.Chat.Id == bot.config.ChatID` and `filterCallbackQuery`) only remove events, so
every state of the running bot is among these. -/
inductive Reachable (H : String → String) (cfg : Config) : Bot → Prop where
  | init : Reachable H cfg NewBot
  | next (e : Event) {b : Bot} : Reachable H cfg b → Reachable H cfg (step H cfg e b)

/-- A run of consecutive button presses. -/
def runCallbacks (H : String → String) (cfg : Config) : List CallbackCtx → Bot → Bot
  | [], b => b
  | ctx :: rest, b => runCallbacks H cfg rest (handleCallbackQuery H cfg ctx b).bot

/-! ## Observations on the record of calls -/

/-- Whether a call is a membership action (approve, decline or ban). -/
def Call.isMembership : Call → Bool
  | .ApproveChatJoinRequest _ _ => true
  | .DeclineChatJoinRequest _ _ => true
  | .BanChatMember _ _ _ => true
  | _ => false

/-- The membership actions issued so far, in order. -/
def membershipCalls (cs : List Call) : List Call := cs.filter Call.isMembership

/-- The keyboard of the most recent call when that call displays a message. -/
def lastKeyboard (cs : List Call) : List (List Button) :=
  match cs.getLast? with
  | some (.SendMessage _ _ kb) => kb
  | some (.EditMessageText _ _ _ _ kb) => kb
  | _ => []

/-- The display texts of a keyboard, in order. -/
def displayTexts (kb : List (List Button)) : List String := kb.flatten.map Button.Text

/-- The token carried by the first button of the keyboard showing `text`. -/
def shownToken (kb : List (List Button)) (text : String) : Option String :=
  (kb.flatten.find? fun btn => btn.Text = text).map Button.CallbackData

/-- The token shown, on the challenge currently displayed, by the entry whose text
is the correct answer of the requester's current question. -/
def shownAnswerToken (cfg : Config) (userId : Int) (b : Bot) : Option String :=
  match b.statusMap userId with
  | none => none
  | some st =>
    match cfg.Questions[st.questionIndex]? with
    | none => none
    | some question => shownToken (lastKeyboard b.calls) question.Answer

/-- Every press of the run comes from `userId`, carries the token shown for the
correct answer of the current question, and has its display call succeed. -/
def CorrectResponses (H : String → String) (cfg : Config) (userId : Int) :
    List CallbackCtx → Bot → Prop
  | [], _ => True
  | ctx :: rest, b =>
    ctx.userId = userId ∧ some ctx.data = shownAnswerToken cfg userId b ∧ ctx.editFails = false ∧
      CorrectResponses H cfg userId rest (handleCallbackQuery H cfg ctx b).bot

/-- Every stored session owns an armed timer created for its requester. -/
def TimersArmed (b : Bot) : Prop :=
  ∀ u st, b.statusMap u = some st →
    ∃ t, b.timers[st.timer]? = some t ∧ t.state = .armed ∧ t.userId = u

/-- Every stored question index is a valid position of `Questions`. -/
def IndexInRange (cfg : Config) (b : Bot) : Prop :=
  ∀ u st, b.statusMap u = some st → st.questionIndex < cfg.Questions.length

/-- Every session other than that of `u` owns an armed timer created for its requester. -/
def ArmedExcept (u : Int) (b : Bot) : Prop :=
  ∀ v st, v ≠ u → b.statusMap v = some st →
    ∃ t, b.timers[st.timer]? = some t ∧ t.state = .armed ∧ t.userId = v

/-- The state after `timer.Stop()` has stopped the armed timer of `st`. -/
def stopped (b : Bot) (st : status) (t : Timer) : Bot :=
  { b with timers := b.timers.set st.timer { t with state := .stopped } }

/-! ## A concrete scenario

Two questions, requester 7, and the states used to evaluate the handlers. -/

/-- A stand-in for the hash in concrete runs. -/
def demoHash (s : String) : String := "#" ++ s

/-- The two-question configuration of the concrete scenario. -/
def demoConfig : Config :=
  { BanTime := 3600, ChatID := -1001, Timeout := 60,
    Messages := ⟨"ask", "correct", "invalid", "wrong", "timeout"⟩,
    Questions := [⟨"Capital of France?", "Paris", ["Paris", "Berlin"]⟩,
      ⟨"Colour of the sky?", "Blue", ["Blue", "Red"]⟩] }

/-- A configuration with a single question whose answer is not among its choices. -/
def demoSingle : Config :=
  { BanTime := 3600, ChatID := -1001, Timeout := 60,
    Messages := ⟨"ask", "correct", "invalid", "wrong", "timeout"⟩,
    Questions := [⟨"Two plus two?", "4", ["3", "5"]⟩] }

/-- Requester 7 asks to join at instant 1000; the challenge is sent as message 50. -/
def demoJoin : JoinCtx := ⟨7, 1000, fun _ => 0, some 50⟩

/-- The state after requester 7 has joined. -/
def demoJoined : Bot := step demoHash demoConfig (.join demoJoin) NewBot

/-- Requester 7 presses a button carrying `data` on message 50. -/
def demoPress (data : String) (editFails : Bool) : CallbackCtx :=
  ⟨7, 7, 50, "", data, fun _ => 0, editFails, 1005⟩

/-- The state after requester 7 has answered the first question correctly. -/
def demoAdvanced : Bot :=
  step demoHash demoConfig (.callback (demoPress "#Paris1000" false)) demoJoined

/-- The state after requester 7 has asked to join a second time, at instant 1001. -/
def demoRejoined : Bot :=
  step demoHash demoConfig (.join ⟨7, 1001, fun _ => 0, some 51⟩) demoJoined

/-- The state after requester 7 has joined twice and the first timer has fired: no
session is stored and the second timer is still armed. -/
def demoExpired : Bot :=
  fireTimer demoConfig 1060 0
    (step demoHash demoConfig (.join ⟨7, 1001, fun _ => 0, some 51⟩) demoJoined)

/-! ## The shuffle is a permutation -/

theorem set_set_perm_of_getElem (xs : List String) (i j : Nat) (a b : String)
    (hi : xs[i]? = some a) (hj : xs[j]? = some b) : ((xs.set i b).set j a).Perm xs := by
  obtain ⟨hil, hia⟩ := List.getElem?_eq_some_iff.mp hi
  obtain ⟨hjl, hjb⟩ := List.getElem?_eq_some_iff.mp hj
  rw [List.perm_iff_count]
  intro c
  have hle : (if (a == c) = true then 1 else 0) ≤ List.count c xs := by
    by_cases hac : (a == c) = true
    · have hmem : c ∈ xs := by
        have h1 : a = c := by simpa using hac
        rw [← h1, ← hia]; exact List.getElem_mem _
      have hpos := List.count_pos_iff.mpr hmem
      rw [if_pos hac]; omega
    · rw [if_neg hac]; omega
  by_cases hij : i = j
  · subst hij
    have hab : a = b := by rw [← hia, ← hjb]
    subst hab
    rw [List.set_set, List.count_set _ _ _ _ hil, hia]
    omega
  · have hjl2 : j < (xs.set i b).length := by simpa using hjl
    rw [List.count_set _ _ _ _ hjl2, List.count_set _ _ _ _ hil, List.getElem_set_ne hij, hia, hjb]
    generalize (if (a == c) = true then 1 else 0) = p at hle ⊢
    generalize (if (b == c) = true then 1 else 0) = q
    omega

theorem swapAt_perm (xs : List String) (i j : Nat) : (swapAt xs i j).Perm xs := by
  unfold swapAt
  split
  · next a b hi hj => exact set_set_perm_of_getElem xs i j a b hi hj
  · exact List.Perm.refl _

theorem shuffleLoop_perm (rnd : Nat → Nat) (n : Nat) (xs : List String) :
    (shuffleLoop rnd n xs).Perm xs := by
  induction n generalizing xs with
  | zero => exact List.Perm.refl _
  | succ i ih => exact (ih _).trans (swapAt_perm _ _ _)

theorem shuffle_perm (rnd : Nat → Nat) (xs : List String) : (shuffle rnd xs).Perm xs :=
  shuffleLoop_perm rnd _ xs

/-! ## State operations and the branches of the handlers -/

@[simp]
theorem call_statusMap (b : Bot) (c : Call) : (b.call c).statusMap = b.statusMap := rfl

@[simp]
theorem call_timers (b : Bot) (c : Call) : (b.call c).timers = b.timers := rfl

@[simp]
theorem call_calls (b : Bot) (c : Call) : (b.call c).calls = b.calls ++ [c] := rfl

@[simp]
theorem delete_timers (b : Bot) (u : Int) : (b.delete u).timers = b.timers := rfl

@[simp]
theorem delete_calls (b : Bot) (u : Int) : (b.delete u).calls = b.calls := rfl

@[simp]
theorem delete_statusMap (b : Bot) (u k : Int) :
    (b.delete u).statusMap k = if k = u then none else b.statusMap k := rfl

@[simp]
theorem store_timers (b : Bot) (u : Int) (st : status) : (b.store u st).timers = b.timers := rfl

@[simp]
theorem store_calls (b : Bot) (u : Int) (st : status) : (b.store u st).calls = b.calls := rfl

@[simp]
theorem store_statusMap (b : Bot) (u k : Int) (st : status) :
    (b.store u st).statusMap k = if k = u then some st else b.statusMap k := rfl

theorem armed_of_armedExcept {b : Bot} {u : Int} (h : ArmedExcept u b)
    (hu : b.statusMap u = none) : TimersArmed b := by
  intro v st hv
  by_cases hvu : v = u
  · subst hvu; rw [hu] at hv; cases hv
  · exact h v st hvu hv

theorem armedExcept_call {b : Bot} {u : Int} (h : ArmedExcept u b) (c : Call) :
    ArmedExcept u (b.call c) := h

theorem armed_delete {b : Bot} {u : Int} (h : ArmedExcept u b) : TimersArmed (b.delete u) := by
  intro v st hv
  by_cases hvu : v = u
  · simp [hvu] at hv
  · simp [hvu] at hv
    exact h v st hvu hv

theorem armed_deleteStatusAndDecline {b : Bot} {u : Int} (h : ArmedExcept u b)
    (cfg : Config) (now : Int) : TimersArmed (deleteStatusAndDecline cfg now u b) := by
  unfold deleteStatusAndDecline
  split
  · exact armed_delete h
  · next hnone => exact armed_of_armedExcept h hnone

theorem armed_deleteStatusAndApprove {b : Bot} {u : Int} (h : ArmedExcept u b)
    (cfg : Config) : TimersArmed (deleteStatusAndApprove cfg u b) := by
  unfold deleteStatusAndApprove
  split
  · exact armed_delete h
  · next hnone => exact armed_of_armedExcept h hnone

/-- Changing the state of a timer created for `u` leaves the other sessions armed. -/
theorem armedExcept_setTimer {b : Bot} (h : TimersArmed b) {k : Nat} {t : Timer} {u : Int}
    (hk : b.timers[k]? = some t) (hown : t.userId = u) (s : TimerState) :
    ArmedExcept u { b with timers := b.timers.set k { t with state := s } } := by
  intro v st hvu hv
  obtain ⟨t1, ht1, harm, hown1⟩ := h v st hv
  have hne : k ≠ st.timer := by
    intro heq
    rw [← heq, hk] at ht1
    cases ht1
    exact hvu (hown1.symm.trans hown)
  refine ⟨t1, ?_, harm, hown1⟩
  simp [List.getElem?_set, hne, ht1]

theorem index_congr {cfg : Config} {b1 b2 : Bot} (h : IndexInRange cfg b1)
    (heq : b2.statusMap = b1.statusMap) : IndexInRange cfg b2 := by
  intro v st hv
  rw [heq] at hv
  exact h v st hv

theorem armed_join {b : Bot} (h : TimersArmed b) (d u m now : Int) :
    TimersArmed ((b.afterFunc d u m).2.store u ⟨now, 0, (b.afterFunc d u m).1⟩) := by
  intro v st hv
  by_cases hvu : v = u
  · subst hvu
    simp at hv
    subst hv
    exact ⟨⟨d, v, m, .armed⟩, by simp [Bot.afterFunc], rfl, rfl⟩
  · simp [hvu] at hv
    obtain ⟨t1, ht1, harm, hown⟩ := h v st hv
    refine ⟨t1, ?_, harm, hown⟩
    have hlt : st.timer < b.timers.length := (List.getElem?_eq_some_iff.mp ht1).1
    simp [Bot.afterFunc, List.getElem?_append_left hlt, ht1]

theorem armed_store_index {b : Bot} (h : TimersArmed b) {u : Int} {st : status}
    (hu : b.statusMap u = some st) (i : Nat) :
    TimersArmed (b.store u { st with questionIndex := i }) := by
  intro v st1 hv
  by_cases hvu : v = u
  · subst hvu
    simp at hv
    subst hv
    exact h v st hu
  · simp [hvu] at hv
    exact h v st1 hv

@[simp]
theorem stopped_statusMap (b : Bot) (st : status) (t : Timer) :
    (stopped b st t).statusMap = b.statusMap := rfl

@[simp]
theorem stopped_calls (b : Bot) (st : status) (t : Timer) :
    (stopped b st t).calls = b.calls := rfl

theorem stopAndDecline_armed {b : Bot} {st : status} {t : Timer}
    (ht : b.timers[st.timer]? = some t) (harm : t.state = .armed)
    (cfg : Config) (ctx : CallbackCtx) (e : Exit) :
    stopAndDecline cfg ctx st b e =
      ⟨deleteStatusAndDecline cfg ctx.now ctx.userId (stopped b st t), e⟩ := by
  simp [stopAndDecline, stopStatusTimer, Bot.stop, ht, harm, stopped]

theorem handleCallbackQuery_none (H : String → String) (cfg : Config) (ctx : CallbackCtx)
    {b : Bot} (hu : b.statusMap ctx.userId = none) :
    handleCallbackQuery H cfg ctx b =
      ⟨b.call (.EditMessageText cfg.Messages.InvalidButton ctx.chatId ctx.msgId "" []),
        if ctx.editFails then .err else .ok⟩ := by
  simp [handleCallbackQuery, hu]

theorem handleCallbackQuery_wrong (H : String → String) (cfg : Config) (ctx : CallbackCtx)
    {b : Bot} {st : status} {cur : Question} {t : Timer}
    (hu : b.statusMap ctx.userId = some st) (hq : cfg.Questions[st.questionIndex]? = some cur)
    (ht : b.timers[st.timer]? = some t) (harm : t.state = .armed)
    (hd : ctx.data ≠ token H cur.Answer st.startTime) :
    handleCallbackQuery H cfg ctx b =
      ⟨deleteStatusAndDecline cfg ctx.now ctx.userId
          (stopped (b.call (.EditMessageText cfg.Messages.WrongAnswer ctx.chatId ctx.msgId
            ctx.inlineMessageId [])) st t),
        if ctx.editFails then .err else .ok⟩ := by
  have hd2 : ¬ token H cur.Answer st.startTime = ctx.data := fun h => hd h.symm
  simp only [handleCallbackQuery, hu, hq, ne_eq, hd2, not_false_eq_true, if_true]
  exact stopAndDecline_armed (b := b.call _) ht harm cfg ctx _

theorem handleCallbackQuery_last (H : String → String) (cfg : Config) (ctx : CallbackCtx)
    {b : Bot} {st : status} {cur : Question} {t : Timer}
    (hu : b.statusMap ctx.userId = some st) (hq : cfg.Questions[st.questionIndex]? = some cur)
    (ht : b.timers[st.timer]? = some t) (harm : t.state = .armed)
    (hd : ctx.data = token H cur.Answer st.startTime)
    (hlast : cfg.Questions.length ≤ st.questionIndex + 1) :
    handleCallbackQuery H cfg ctx b =
      if ctx.editFails then
        ⟨deleteStatusAndDecline cfg ctx.now ctx.userId
          (stopped (b.call (.EditMessageText cfg.Messages.CorrectAnswer ctx.chatId ctx.msgId
            ctx.inlineMessageId [])) st t), .err⟩
      else
        ⟨deleteStatusAndApprove cfg ctx.userId
          (stopped (b.call (.EditMessageText cfg.Messages.CorrectAnswer ctx.chatId ctx.msgId
            ctx.inlineMessageId [])) st t), .ok⟩ := by
  have hge : (st.questionIndex : Int) ≥ (cfg.Questions.length : Int) - 1 := by omega
  simp only [handleCallbackQuery, hu, hq, ne_eq, hd, not_true_eq_false, if_false, hge, if_true]
  split
  · exact stopAndDecline_armed (b := b.call _) ht harm cfg ctx _
  · simp [stopStatusTimer, Bot.stop, ht, harm, stopped]

theorem handleCallbackQuery_advance (H : String → String) (cfg : Config) (ctx : CallbackCtx)
    {b : Bot} {st : status} {cur question : Question} {t : Timer}
    (hu : b.statusMap ctx.userId = some st) (hq : cfg.Questions[st.questionIndex]? = some cur)
    (ht : b.timers[st.timer]? = some t) (harm : t.state = .armed)
    (hd : ctx.data = token H cur.Answer st.startTime)
    (hnext : cfg.Questions[st.questionIndex + 1]? = some question) :
    handleCallbackQuery H cfg ctx b =
      if ctx.editFails then
        ⟨deleteStatusAndDecline cfg ctx.now ctx.userId
          (stopped ((b.store ctx.userId { st with questionIndex := st.questionIndex + 1 }).call
            (.EditMessageText
              (sprintfAsk cfg.Messages.AskQuestion (st.questionIndex + 1 + 1) question.Question)
              ctx.chatId ctx.msgId ctx.inlineMessageId
              (inlineKeyboard H (shuffledChoices ctx.rnd question) st.startTime))) st t), .err⟩
      else
        ⟨(b.store ctx.userId { st with questionIndex := st.questionIndex + 1 }).call
            (.EditMessageText
              (sprintfAsk cfg.Messages.AskQuestion (st.questionIndex + 1 + 1) question.Question)
              ctx.chatId ctx.msgId ctx.inlineMessageId
              (inlineKeyboard H (shuffledChoices ctx.rnd question) st.startTime)), .ok⟩ := by
  have hlt : st.questionIndex + 1 < cfg.Questions.length :=
    (List.getElem?_eq_some_iff.mp hnext).1
  have hge : ¬ (st.questionIndex : Int) ≥ (cfg.Questions.length : Int) - 1 := by omega
  simp only [handleCallbackQuery, hu, hq, ne_eq, hd, not_true_eq_false, if_false, hge, hnext]
  split
  · exact stopAndDecline_armed
      (b := (b.store ctx.userId { st with questionIndex := st.questionIndex + 1 }).call _)
      ht harm cfg ctx _
  · rfl

/-! ## The invariant of the reachable states -/

theorem session_facts {cfg : Config} {b : Bot} (ha : TimersArmed b) (hi : IndexInRange cfg b)
    {u : Int} {st : status} (hu : b.statusMap u = some st) :
    ∃ cur t, cfg.Questions[st.questionIndex]? = some cur ∧ b.timers[st.timer]? = some t ∧
      t.state = .armed ∧ t.userId = u := by
  obtain ⟨t, ht, harm, hown⟩ := ha u st hu
  have hlt := hi u st hu
  exact ⟨cfg.Questions[st.questionIndex], t, List.getElem?_eq_getElem hlt, ht, harm, hown⟩

theorem index_delete {cfg : Config} {b : Bot} (h : IndexInRange cfg b) (u : Int) :
    IndexInRange cfg (b.delete u) := by
  intro v st hv
  by_cases hvu : v = u
  · simp [hvu] at hv
  · simp [hvu] at hv
    exact h v st hv

theorem index_deleteStatusAndDecline {cfg : Config} {b : Bot} (h : IndexInRange cfg b)
    (now u : Int) : IndexInRange cfg (deleteStatusAndDecline cfg now u b) := by
  unfold deleteStatusAndDecline
  split
  · exact index_delete h u
  · exact h

theorem index_deleteStatusAndApprove {cfg : Config} {b : Bot} (h : IndexInRange cfg b)
    (u : Int) : IndexInRange cfg (deleteStatusAndApprove cfg u b) := by
  unfold deleteStatusAndApprove
  split
  · exact index_delete h u
  · exact h

theorem index_store {cfg : Config} {b : Bot} (h : IndexInRange cfg b) (u : Int) {st : status}
    (hst : st.questionIndex < cfg.Questions.length) : IndexInRange cfg (b.store u st) := by
  intro v st1 hv
  by_cases hvu : v = u
  · simp [hvu] at hv
    subst hv
    exact hst
  · simp [hvu] at hv
    exact h v st1 hv

/-- From a state where every session owns an armed timer and a valid index, a button
press keeps both facts and its handler neither blocks nor panics. -/
theorem inv_handleCallbackQuery (H : String → String) (cfg : Config) (ctx : CallbackCtx)
    {b : Bot} (ha : TimersArmed b) (hi : IndexInRange cfg b) :
    TimersArmed (handleCallbackQuery H cfg ctx b).bot ∧
      IndexInRange cfg (handleCallbackQuery H cfg ctx b).bot ∧
      (handleCallbackQuery H cfg ctx b).exit ≠ .blocked ∧
      (handleCallbackQuery H cfg ctx b).exit ≠ .panicked := by
  cases hu : b.statusMap ctx.userId with
  | none =>
    rw [handleCallbackQuery_none H cfg ctx hu]
    refine ⟨ha, hi, ?_, ?_⟩ <;> cases ctx.editFails <;> simp
  | some st =>
    obtain ⟨cur, t, hq, ht, harm, hown⟩ := session_facts ha hi hu
    have hex : ∀ c : Call, ArmedExcept ctx.userId (stopped (b.call c) st t) :=
      fun c => armedExcept_setTimer (b := b.call c) ha ht hown .stopped
    have hix : ∀ c : Call, IndexInRange cfg (stopped (b.call c) st t) :=
      fun _ => index_congr hi rfl
    by_cases hd : ctx.data = token H cur.Answer st.startTime
    · by_cases hlast : cfg.Questions.length ≤ st.questionIndex + 1
      · rw [handleCallbackQuery_last H cfg ctx hu hq ht harm hd hlast]
        cases ctx.editFails
        · exact ⟨armed_deleteStatusAndApprove (hex _) cfg,
            index_deleteStatusAndApprove (hix _) _, by simp, by simp⟩
        · exact ⟨armed_deleteStatusAndDecline (hex _) cfg _,
            index_deleteStatusAndDecline (hix _) _ _, by simp, by simp⟩
      · have hlt : st.questionIndex + 1 < cfg.Questions.length := by omega
        have hnext := List.getElem?_eq_getElem hlt
        rw [handleCallbackQuery_advance H cfg ctx hu hq ht harm hd hnext]
        have ha1 := armed_store_index ha hu (st.questionIndex + 1)
        have hi1 : IndexInRange cfg
            (b.store ctx.userId { st with questionIndex := st.questionIndex + 1 }) :=
          index_store hi _ hlt
        cases ctx.editFails
        · exact ⟨ha1, hi1, by simp, by simp⟩
        · have h1 : ∀ c : Call, ArmedExcept ctx.userId (stopped
              ((b.store ctx.userId { st with questionIndex := st.questionIndex + 1 }).call c)
              st t) :=
            fun c => armedExcept_setTimer
              (b := (b.store ctx.userId { st with questionIndex := st.questionIndex + 1 }).call c)
              ha1 ht hown .stopped
          have h2 : ∀ c : Call, IndexInRange cfg (stopped
              ((b.store ctx.userId { st with questionIndex := st.questionIndex + 1 }).call c)
              st t) :=
            fun _ => index_congr hi1 rfl
          exact ⟨armed_deleteStatusAndDecline (h1 _) cfg _,
            index_deleteStatusAndDecline (h2 _) _ _, by simp, by simp⟩
    · rw [handleCallbackQuery_wrong H cfg ctx hu hq ht harm hd]
      refine ⟨armed_deleteStatusAndDecline (hex _) cfg _,
        index_deleteStatusAndDecline (hix _) _ _, ?_, ?_⟩ <;>
        cases ctx.editFails <;> simp

theorem inv_handleNewChatJoinRequest (H : String → String) (cfg : Config) (ctx : JoinCtx)
    {b : Bot} (ha : TimersArmed b) (hi : IndexInRange cfg b) :
    TimersArmed (handleNewChatJoinRequest H cfg ctx b).bot ∧
      IndexInRange cfg (handleNewChatJoinRequest H cfg ctx b).bot := by
  unfold handleNewChatJoinRequest
  cases hq : cfg.Questions[0]? with
  | none => exact ⟨ha, hi⟩
  | some question =>
    have hlt : 0 < cfg.Questions.length := (List.getElem?_eq_some_iff.mp hq).1
    cases hs : ctx.sent with
    | none => exact ⟨ha, hi⟩
    | some m =>
      exact ⟨armed_join (b := b.call _) ha _ _ _ _,
        index_store (b := (Bot.afterFunc (b.call _) _ _ _).2) hi _ hlt⟩

theorem inv_fireTimer (cfg : Config) (now : Int) (h : Nat)
    {b : Bot} (ha : TimersArmed b) (hi : IndexInRange cfg b) :
    TimersArmed (fireTimer cfg now h b) ∧ IndexInRange cfg (fireTimer cfg now h b) := by
  unfold fireTimer
  cases ht : b.timers[h]? with
  | none => exact ⟨ha, hi⟩
  | some t =>
    by_cases harm : t.state = .armed
    · simp only [harm, if_true, timeoutFunc]
      have h1 := armedExcept_setTimer ha ht rfl .fired
      have h2 : ∀ c : Call, IndexInRange cfg
          (Bot.call { b with timers := b.timers.set h { t with state := .fired } } c) :=
        fun _ => index_congr hi rfl
      exact ⟨armed_deleteStatusAndDecline (armedExcept_call h1 _) cfg _,
        index_deleteStatusAndDecline (h2 _) _ _⟩
    · simp only [harm, if_false]
      exact ⟨ha, hi⟩

/-- Both facts hold in every reachable state. -/
theorem reachable_inv {H : String → String} {cfg : Config} {b : Bot}
    (hb : Reachable H cfg b) : TimersArmed b ∧ IndexInRange cfg b := by
  induction hb with
  | init => exact ⟨fun u st hu => (by cases hu), fun u st hu => (by cases hu)⟩
  | next e _ ih =>
    cases e with
    | join ctx => exact inv_handleNewChatJoinRequest H cfg ctx ih.1 ih.2
    | callback ctx =>
      exact ⟨(inv_handleCallbackQuery H cfg ctx ih.1 ih.2).1,
        (inv_handleCallbackQuery H cfg ctx ih.1 ih.2).2.1⟩
    | fire now h => exact inv_fireTimer cfg now h ih.1 ih.2

/-! ## Wrong answers, deadlines and requesters without a session -/

theorem demoJoined_reachable : Reachable demoHash demoConfig demoJoined :=
  Reachable.next (.join demoJoin) Reachable.init

/-- C2: in a reachable state, a press by a requester with a session at question
`st.questionIndex` whose token differs from the expected one removes the session and
makes exactly three calls: the wrong-answer display (no keyboard), one decline, one
ban; this is so whether the display call fails (`exit = err`) or not. -/
theorem wrong_token_declines (H : String → String) (cfg : Config) (ctx : CallbackCtx)
    (b : Bot) (st : status) (cur : Question) (hb : Reachable H cfg b)
    (hu : b.statusMap ctx.userId = some st)
    (hq : cfg.Questions[st.questionIndex]? = some cur)
    (hd : ctx.data ≠ token H cur.Answer st.startTime) :
    (handleCallbackQuery H cfg ctx b).bot.statusMap ctx.userId = none ∧
      (handleCallbackQuery H cfg ctx b).bot.calls = b.calls ++
        [.EditMessageText cfg.Messages.WrongAnswer ctx.chatId ctx.msgId ctx.inlineMessageId [],
          .DeclineChatJoinRequest cfg.ChatID ctx.userId,
          .BanChatMember cfg.ChatID ctx.userId (wrapInt64 (ctx.now + cfg.BanTime))] ∧
      (handleCallbackQuery H cfg ctx b).exit = (if ctx.editFails then .err else .ok) := by
  obtain ⟨t, ht, harm, _⟩ := (reachable_inv hb).1 _ st hu
  rw [handleCallbackQuery_wrong H cfg ctx hu hq ht harm hd]
  simp [deleteStatusAndDecline, hu]

theorem wrong_token_declines_witness :
    (handleCallbackQuery demoHash demoConfig (demoPress "bogus" true) demoJoined).bot.statusMap 7
        = none ∧
      (handleCallbackQuery demoHash demoConfig (demoPress "bogus" true) demoJoined).bot.calls =
        demoJoined.calls ++ [.EditMessageText "wrong" 7 50 "" [],
          .DeclineChatJoinRequest (-1001) 7, .BanChatMember (-1001) 7 4605] ∧
      (handleCallbackQuery demoHash demoConfig (demoPress "bogus" true) demoJoined).exit = .err :=
  wrong_token_declines demoHash demoConfig (demoPress "bogus" true) demoJoined ⟨1000, 0, 0⟩
    ⟨"Capital of France?", "Paris", ["Paris", "Berlin"]⟩ demoJoined_reachable rfl rfl (by decide)

/-- C3: in a reachable state, when the timer owned by a stored session fires, the
session is removed and exactly three calls are made: the timeout template is displayed
on the challenge message (no keyboard), then one decline, then one ban; no approve. -/
theorem deadline_fire_declines (H : String → String) (cfg : Config) (b : Bot) (u : Int)
    (st : status) (now : Int) (hb : Reachable H cfg b) (hu : b.statusMap u = some st) :
    ∃ t, b.timers[st.timer]? = some t ∧
      (fireTimer cfg now st.timer b).statusMap u = none ∧
      (fireTimer cfg now st.timer b).calls = b.calls ++
        [.EditMessageText cfg.Messages.TimeoutError u t.msgId "" [],
          .DeclineChatJoinRequest cfg.ChatID u,
          .BanChatMember cfg.ChatID u (wrapInt64 (now + cfg.BanTime))] := by
  obtain ⟨t, ht, harm, hown⟩ := (reachable_inv hb).1 u st hu
  refine ⟨t, ht, ?_⟩
  subst hown
  simp only [fireTimer, ht, harm, if_true, timeoutFunc]
  simp [deleteStatusAndDecline, hu]

theorem deadline_fire_declines_witness :
    (fireTimer demoConfig 1060 0 demoJoined).statusMap 7 = none ∧
      (fireTimer demoConfig 1060 0 demoJoined).calls = demoJoined.calls ++
        [.EditMessageText "timeout" 7 50 "" [],
          .DeclineChatJoinRequest (-1001) 7, .BanChatMember (-1001) 7 4660] := by
  obtain ⟨t, ht, h1, h2⟩ := deadline_fire_declines demoHash demoConfig demoJoined 7
    ⟨1000, 0, 0⟩ 1060 demoJoined_reachable rfl
  have h3 : some (Timer.mk 60000000000 7 50 .armed) = some t := ht
  cases h3
  exact ⟨h1, h2⟩

/-- C4: for a requester with no stored session, a press with any token leaves the
session map as it was and makes exactly one call, the display of the invalid-button
template; the firing of any timer created for that requester leaves the session map
as it was and issues no membership action. -/
theorem no_session_no_action (H : String → String) (cfg : Config) (b : Bot) (u : Int)
    (hu : b.statusMap u = none) :
    (∀ ctx : CallbackCtx, ctx.userId = u →
      (handleCallbackQuery H cfg ctx b).bot.statusMap = b.statusMap ∧
        (handleCallbackQuery H cfg ctx b).bot.calls = b.calls ++
          [.EditMessageText cfg.Messages.InvalidButton ctx.chatId ctx.msgId "" []]) ∧
      (∀ (now : Int) (h : Nat) (t : Timer), b.timers[h]? = some t → t.userId = u →
        (fireTimer cfg now h b).statusMap = b.statusMap ∧
          membershipCalls (fireTimer cfg now h b).calls = membershipCalls b.calls) := by
  constructor
  · intro ctx hctx
    subst hctx
    rw [handleCallbackQuery_none H cfg ctx hu]
    exact ⟨rfl, rfl⟩
  · intro now h t ht hown
    subst hown
    unfold fireTimer
    rw [ht]
    by_cases harm : t.state = .armed
    · simp [harm, timeoutFunc, deleteStatusAndDecline, hu, membershipCalls, Call.isMembership]
    · simp [harm]

theorem no_session_no_action_witness :
    ((handleCallbackQuery demoHash demoConfig (demoPress "#Paris1001" false)
          demoExpired).bot.statusMap = demoExpired.statusMap ∧
        (handleCallbackQuery demoHash demoConfig (demoPress "#Paris1001" false)
          demoExpired).bot.calls = demoExpired.calls ++ [.EditMessageText "invalid" 7 50 "" []]) ∧
      ((fireTimer demoConfig 1061 1 demoExpired).statusMap = demoExpired.statusMap ∧
        membershipCalls (fireTimer demoConfig 1061 1 demoExpired).calls =
          membershipCalls demoExpired.calls) :=
  ⟨(no_session_no_action demoHash demoConfig demoExpired 7 rfl).1
      (demoPress "#Paris1001" false) rfl,
    (no_session_no_action demoHash demoConfig demoExpired 7 rfl).2 1061 1
      ⟨60000000000, 7, 51, .armed⟩ rfl rfl⟩

/-! ## Question indices and timers in reachable states -/

theorem handleCallbackQuery_other (H : String → String) (cfg : Config) (ctx : CallbackCtx)
    {b : Bot} (ha : TimersArmed b) (hi : IndexInRange cfg b) {v : Int} (hv : v ≠ ctx.userId) :
    (handleCallbackQuery H cfg ctx b).bot.statusMap v = b.statusMap v := by
  cases hu : b.statusMap ctx.userId with
  | none => rw [handleCallbackQuery_none H cfg ctx hu]; rfl
  | some st =>
    obtain ⟨cur, t, hq, ht, harm, hown⟩ := session_facts ha hi hu
    by_cases hd : ctx.data = token H cur.Answer st.startTime
    · by_cases hlast : cfg.Questions.length ≤ st.questionIndex + 1
      · rw [handleCallbackQuery_last H cfg ctx hu hq ht harm hd hlast]
        cases ctx.editFails <;>
          simp [deleteStatusAndDecline, deleteStatusAndApprove, hu, hv]
      · have hlt : st.questionIndex + 1 < cfg.Questions.length := by omega
        rw [handleCallbackQuery_advance H cfg ctx hu hq ht harm hd (List.getElem?_eq_getElem hlt)]
        cases ctx.editFails <;> simp [deleteStatusAndDecline, hv]
    · rw [handleCallbackQuery_wrong H cfg ctx hu hq ht harm hd]
      simp [deleteStatusAndDecline, hu, hv]

/-- C9: with at least one question, in every reachable state each stored question
index is at most `N - 1` and is a valid position of `Questions`; neither handler
panics on an index out of range; and a press changes a stored index only by adding
exactly one, only for the requester who pressed, and only when the token received is
the expected token of the current question. -/
theorem index_in_range_and_advances_by_one (H : String → String) (cfg : Config) (b : Bot)
    (hN : 1 ≤ cfg.Questions.length) (hb : Reachable H cfg b) :
    (∀ u st, b.statusMap u = some st →
      st.questionIndex ≤ cfg.Questions.length - 1 ∧
        ∃ q, cfg.Questions[st.questionIndex]? = some q) ∧
      (∀ ctx : JoinCtx, (handleNewChatJoinRequest H cfg ctx b).exit ≠ .panicked) ∧
      (∀ ctx : CallbackCtx, (handleCallbackQuery H cfg ctx b).exit ≠ .panicked) ∧
      (∀ (ctx : CallbackCtx) (u : Int) (st st1 : status), b.statusMap u = some st →
        (handleCallbackQuery H cfg ctx b).bot.statusMap u = some st1 →
        st1.questionIndex ≠ st.questionIndex →
          st1.questionIndex = st.questionIndex + 1 ∧ u = ctx.userId ∧
            ∃ q, cfg.Questions[st.questionIndex]? = some q ∧
              ctx.data = token H q.Answer st.startTime) := by
  obtain ⟨ha, hi⟩ := reachable_inv hb
  refine ⟨?_, ?_, ?_, ?_⟩
  · intro u st hu
    have hlt := hi u st hu
    exact ⟨by omega, _, List.getElem?_eq_getElem hlt⟩
  · intro ctx
    have hq : cfg.Questions[0]? = some cfg.Questions[0] := List.getElem?_eq_getElem hN
    unfold handleNewChatJoinRequest
    rw [hq]
    cases ctx.sent <;> simp [Bot.afterFunc]
  · intro ctx
    exact (inv_handleCallbackQuery H cfg ctx ha hi).2.2.2
  · intro ctx u st st1 hu hu1 hne
    by_cases huv : u = ctx.userId
    · subst huv
      obtain ⟨cur, t, hq, ht, harm, hown⟩ := session_facts ha hi hu
      by_cases hd : ctx.data = token H cur.Answer st.startTime
      · by_cases hlast : cfg.Questions.length ≤ st.questionIndex + 1
        · rw [handleCallbackQuery_last H cfg ctx hu hq ht harm hd hlast] at hu1
          cases hf : ctx.editFails <;>
            simp [hf, deleteStatusAndDecline, deleteStatusAndApprove, hu] at hu1
        · have hlt : st.questionIndex + 1 < cfg.Questions.length := by omega
          rw [handleCallbackQuery_advance H cfg ctx hu hq ht harm hd
            (List.getElem?_eq_getElem hlt)] at hu1
          cases hf : ctx.editFails
          · simp [hf] at hu1
            subst hu1
            exact ⟨rfl, rfl, cur, hq, hd⟩
          · simp [hf, deleteStatusAndDecline] at hu1
      · rw [handleCallbackQuery_wrong H cfg ctx hu hq ht harm hd] at hu1
        simp [deleteStatusAndDecline, hu] at hu1
    · rw [handleCallbackQuery_other H cfg ctx ha hi huv, hu] at hu1
      cases hu1
      exact absurd rfl hne

theorem index_in_range_and_advances_by_one_witness :
    (some (status.mk 1000 1 0) = demoAdvanced.statusMap 7 ∧ 1 ≤ demoConfig.Questions.length - 1) ∧
      (handleCallbackQuery demoHash demoConfig (demoPress "#Paris1000" false)
        demoJoined).exit ≠ .panicked ∧
      (1 = 0 + 1 ∧ (7 : Int) = 7 ∧ ∃ q, demoConfig.Questions[0]? = some q ∧
        "#Paris1000" = token demoHash q.Answer 1000) :=
  ⟨⟨rfl, ((index_in_range_and_advances_by_one demoHash demoConfig demoAdvanced (by decide)
      (Reachable.next _ demoJoined_reachable)).1 7 ⟨1000, 1, 0⟩ rfl).1⟩,
    (index_in_range_and_advances_by_one demoHash demoConfig demoJoined (by decide)
      demoJoined_reachable).2.2.1 (demoPress "#Paris1000" false),
    (index_in_range_and_advances_by_one demoHash demoConfig demoJoined (by decide)
      demoJoined_reachable).2.2.2 (demoPress "#Paris1000" false) 7 ⟨1000, 0, 0⟩ ⟨1000, 1, 0⟩
      rfl rfl (by decide)⟩

/-- C10: in every reachable state the timer stored in each session is armed, so
`timer.Stop()` on it returns `true`, and no invocation of `handleCallbackQuery` ends
blocked on the receive in `stopStatusTimer`. -/
theorem stored_timers_armed (H : String → String) (cfg : Config) (b : Bot)
    (hb : Reachable H cfg b) :
    (∀ u st, b.statusMap u = some st →
      (∃ t, b.timers[st.timer]? = some t ∧ t.state = .armed) ∧ (b.stop st.timer).1 = true) ∧
      (∀ ctx : CallbackCtx, (handleCallbackQuery H cfg ctx b).exit ≠ .blocked) := by
  obtain ⟨ha, hi⟩ := reachable_inv hb
  refine ⟨?_, fun ctx => (inv_handleCallbackQuery H cfg ctx ha hi).2.2.1⟩
  intro u st hu
  obtain ⟨t, ht, harm, _⟩ := ha u st hu
  exact ⟨⟨t, ht, harm⟩, by simp [Bot.stop, ht, harm]⟩

theorem stored_timers_armed_witness :
    ((∃ t, demoAdvanced.timers[0]? = some t ∧ t.state = .armed) ∧
        (demoAdvanced.stop 0).1 = true) ∧
      (handleCallbackQuery demoHash demoConfig (demoPress "#Red1000" false)
        demoAdvanced).exit ≠ .blocked :=
  ⟨(stored_timers_armed demoHash demoConfig demoAdvanced
      (Reachable.next _ demoJoined_reachable)).1 7 ⟨1000, 1, 0⟩ rfl,
    (stored_timers_armed demoHash demoConfig demoAdvanced
      (Reachable.next _ demoJoined_reachable)).2 (demoPress "#Red1000" false)⟩

/-! ## A run of correct answers -/

theorem find_self_of_mem (a : String) (l : List String) (h : a ∈ l) :
    l.find? (fun c => decide (c = a)) = some a := by
  induction l with
  | nil => cases h
  | cons x xs ih =>
    by_cases hx : x = a
    · simp [List.find?, hx]
    · have hmem : a ∈ xs := by
        rcases List.mem_cons.mp h with h1 | h1
        · exact absurd h1.symm hx
        · exact h1
      simp [List.find?, hx, ih hmem]

theorem flatten_inlineKeyboard (H : String → String) (choices : List String) (t : Int) :
    (inlineKeyboard H choices t).flatten =
      choices.map fun c => (⟨c, token H c t⟩ : Button) := by
  induction choices with
  | nil => rfl
  | cons c cs ih =>
    simp only [inlineKeyboard, List.map_cons, List.flatten_cons] at ih ⊢
    rw [ih]
    rfl

theorem displayTexts_inlineKeyboard (H : String → String) (choices : List String) (t : Int) :
    displayTexts (inlineKeyboard H choices t) = choices := by
  simp [displayTexts, flatten_inlineKeyboard, Function.comp_def]

/-- On a keyboard built by the handlers, the entry showing `a` carries the token of `a`. -/
theorem shownToken_inlineKeyboard (H : String → String) (choices : List String) (t : Int)
    (a : String) (h : a ∈ choices) :
    shownToken (inlineKeyboard H choices t) a = some (token H a t) := by
  simp only [shownToken, flatten_inlineKeyboard, List.find?_map, Function.comp_def]
  rw [find_self_of_mem a choices h]
  rfl

theorem answer_mem_shuffledChoices (rnd : Nat → Nat) (q : Question) :
    q.Answer ∈ shuffledChoices rnd q :=
  (shuffle_perm rnd _).mem_iff.mpr (List.mem_cons_self _ _)

@[simp]
theorem lastKeyboard_send (cs : List Call) (c : Int) (s : String) (kb : List (List Button)) :
    lastKeyboard (cs ++ [.SendMessage c s kb]) = kb := by
  simp [lastKeyboard]

@[simp]
theorem lastKeyboard_edit (cs : List Call) (s : String) (c m : Int) (i : String)
    (kb : List (List Button)) :
    lastKeyboard (cs ++ [.EditMessageText s c m i kb]) = kb := by
  simp [lastKeyboard]

/-- A run of correct answers from question `q` on ends in exactly one approval. -/
theorem runCallbacks_correct (H : String → String) (cfg : Config) (u : Int)
    (es : List CallbackCtx) :
    ∀ (b : Bot) (st : status) (t : Timer) (cur : Question),
      b.statusMap u = some st → b.timers[st.timer]? = some t → t.state = .armed →
      cfg.Questions[st.questionIndex]? = some cur →
      shownToken (lastKeyboard b.calls) cur.Answer = some (token H cur.Answer st.startTime) →
      es.length + st.questionIndex = cfg.Questions.length →
      CorrectResponses H cfg u es b →
      (runCallbacks H cfg es b).statusMap u = none ∧
        membershipCalls (runCallbacks H cfg es b).calls =
          membershipCalls b.calls ++ [.ApproveChatJoinRequest cfg.ChatID u] := by
  induction es with
  | nil =>
    intro b st t cur _ _ _ hq _ hlen _
    have := (List.getElem?_eq_some_iff.mp hq).1
    simp at hlen
    omega
  | cons e rest ih =>
    intro b st t cur hu ht harm hq hshown hlen hes
    obtain ⟨heu, hdata, hok, hrest⟩ := hes
    subst heu
    have hd : e.data = token H cur.Answer st.startTime := by
      simp only [shownAnswerToken, hu, hq, hshown] at hdata
      exact Option.some.inj hdata
    simp only [List.length_cons] at hlen
    by_cases hlast : cfg.Questions.length ≤ st.questionIndex + 1
    · have hnil : rest = [] := List.length_eq_zero.mp (by omega)
      subst hnil
      simp only [runCallbacks]
      rw [handleCallbackQuery_last H cfg e hu hq ht harm hd hlast]
      simp [hok, deleteStatusAndApprove, hu, membershipCalls, Call.isMembership]
    · have hlt : st.questionIndex + 1 < cfg.Questions.length := by omega
      have hnext := List.getElem?_eq_getElem hlt
      have hstep := handleCallbackQuery_advance H cfg e hu hq ht harm hd hnext
      simp only [hok, Bool.false_eq_true, if_false] at hstep
      have hbot : (handleCallbackQuery H cfg e b).bot =
          (b.store e.userId { st with questionIndex := st.questionIndex + 1 }).call
            (.EditMessageText
              (sprintfAsk cfg.Messages.AskQuestion (st.questionIndex + 1 + 1)
                cfg.Questions[st.questionIndex + 1].Question)
              e.chatId e.msgId e.inlineMessageId
              (inlineKeyboard H (shuffledChoices e.rnd cfg.Questions[st.questionIndex + 1])
                st.startTime)) := by
        rw [hstep]
      have hm : membershipCalls (handleCallbackQuery H cfg e b).bot.calls =
          membershipCalls b.calls := by
        rw [hbot]
        simp [membershipCalls, Call.isMembership]
      have hfin := ih (handleCallbackQuery H cfg e b).bot
        { st with questionIndex := st.questionIndex + 1 } t
        cfg.Questions[st.questionIndex + 1] (by rw [hbot]; simp) (by rw [hbot]; exact ht) harm
        hnext
        (by rw [hbot]; simp [shownToken_inlineKeyboard, answer_mem_shuffledChoices])
        (by simp only []; omega) hrest
      rw [hm] at hfin
      exact hfin

/-- C1: with at least one question, after a join request whose challenge is sent
successfully, followed by as many presses as there are questions, each from the
requester, each carrying the token shown on the current challenge by the entry whose
text is the correct answer of the current question, and each with its display call
succeeding, the requester has no stored session and the membership actions issued since
before the join are exactly one approval of the requester (no decline, no ban).  This
holds whether or not a session was stored for the requester before the join. -/
theorem all_correct_answers_approve (H : String → String) (cfg : Config) (jc : JoinCtx)
    (m : Int) (es : List CallbackCtx) (b : Bot)
    (hN : 1 ≤ cfg.Questions.length) (hsent : jc.sent = some m)
    (hlen : es.length = cfg.Questions.length)
    (hes : CorrectResponses H cfg jc.userId es (handleNewChatJoinRequest H cfg jc b).bot) :
    (runCallbacks H cfg es (handleNewChatJoinRequest H cfg jc b).bot).statusMap jc.userId
        = none ∧
      membershipCalls (runCallbacks H cfg es (handleNewChatJoinRequest H cfg jc b).bot).calls =
        membershipCalls b.calls ++ [.ApproveChatJoinRequest cfg.ChatID jc.userId] := by
  have hq : cfg.Questions[0]? = some cfg.Questions[0] := List.getElem?_eq_getElem hN
  have hjoin : (handleNewChatJoinRequest H cfg jc b).bot =
      ((b.call (.SendMessage jc.userId
          (sprintfAsk cfg.Messages.AskQuestion 1 cfg.Questions[0].Question)
          (inlineKeyboard H (shuffledChoices jc.rnd cfg.Questions[0]) jc.now))).afterFunc
        (wrapInt64 (cfg.Timeout * 1000000000)) jc.userId m).2.store jc.userId
        ⟨jc.now, 0, b.timers.length⟩ := by
    simp [handleNewChatJoinRequest, hq, hsent, Bot.afterFunc]
  rw [hjoin] at hes ⊢
  have := runCallbacks_correct H cfg jc.userId es _ ⟨jc.now, 0, b.timers.length⟩
    ⟨wrapInt64 (cfg.Timeout * 1000000000), jc.userId, m, .armed⟩ cfg.Questions[0]
    (by simp) (by simp [Bot.afterFunc]) rfl hq
    (by simp [Bot.afterFunc, shownToken_inlineKeyboard, answer_mem_shuffledChoices])
    (by simpa using hlen) hes
  simpa [Bot.afterFunc, membershipCalls, Call.isMembership] using this

theorem all_correct_answers_approve_witness :
    (runCallbacks demoHash demoConfig
        [demoPress "#Paris1000" false, demoPress "#Blue1000" false] demoJoined).statusMap 7
        = none ∧
      membershipCalls (runCallbacks demoHash demoConfig
        [demoPress "#Paris1000" false, demoPress "#Blue1000" false] demoJoined).calls =
        [.ApproveChatJoinRequest (-1001) 7] :=
  all_correct_answers_approve demoHash demoConfig demoJoin 50
    [demoPress "#Paris1000" false, demoPress "#Blue1000" false] NewBot (by decide) rfl rfl
    ⟨rfl, rfl, rfl, rfl, rfl, rfl, trivial⟩

/-! ## Where the code departs from the stated behaviour -/

/-- C5, as stated, fails: a second join request of requester 7 replaces the stored
session (start instant 1000, handle 0) by another one (start instant 1001, handle 1)
and arms a second timer for the requester. -/
theorem duplicate_join_replaces_session :
    demoJoined.statusMap 7 = some ⟨1000, 0, 0⟩ ∧
      demoRejoined.statusMap 7 = some ⟨1001, 0, 1⟩ ∧
      demoRejoined.statusMap 7 ≠ demoJoined.statusMap 7 ∧
      demoJoined.timers = [⟨60000000000, 7, 50, .armed⟩] ∧
      demoRejoined.timers =
        [⟨60000000000, 7, 50, .armed⟩, ⟨60000000000, 7, 51, .armed⟩] := by
  decide

/-- C5, amended: in a reachable state where the requester already has a session, a
join request whose challenge is sent successfully replaces the stored session by a new
one (start instant of this request, question index 0, a handle different from the
previous one) and that handle is a timer armed for the configured duration; when
sending the challenge fails, the session map and the timers are what they were. -/
theorem join_replaces_session (H : String → String) (cfg : Config) (jc : JoinCtx) (b : Bot)
    (st : status) (hN : 1 ≤ cfg.Questions.length) (hb : Reachable H cfg b)
    (hu : b.statusMap jc.userId = some st) :
    (∀ m, jc.sent = some m →
      (handleNewChatJoinRequest H cfg jc b).bot.statusMap jc.userId =
          some ⟨jc.now, 0, b.timers.length⟩ ∧
        b.timers.length ≠ st.timer ∧
        (handleNewChatJoinRequest H cfg jc b).bot.timers[b.timers.length]? =
          some ⟨wrapInt64 (cfg.Timeout * 1000000000), jc.userId, m, .armed⟩) ∧
      (jc.sent = none →
        (handleNewChatJoinRequest H cfg jc b).bot.statusMap = b.statusMap ∧
          (handleNewChatJoinRequest H cfg jc b).bot.timers = b.timers) := by
  have hq : cfg.Questions[0]? = some cfg.Questions[0] := List.getElem?_eq_getElem hN
  obtain ⟨t, ht, _, _⟩ := (reachable_inv hb).1 _ st hu
  have hlt : st.timer < b.timers.length := (List.getElem?_eq_some_iff.mp ht).1
  constructor
  · intro m hm
    refine ⟨?_, by omega, ?_⟩ <;> simp [handleNewChatJoinRequest, hq, hm, Bot.afterFunc]
  · intro hm
    simp [handleNewChatJoinRequest, hq, hm]

theorem join_replaces_session_witness :
    (demoRejoined.statusMap 7 = some ⟨1001, 0, 1⟩ ∧ 1 ≠ 0 ∧
        demoRejoined.timers[1]? = some ⟨60000000000, 7, 51, .armed⟩) ∧
      ((handleNewChatJoinRequest demoHash demoConfig ⟨7, 1001, fun _ => 0, none⟩
          demoJoined).bot.statusMap = demoJoined.statusMap ∧
        (handleNewChatJoinRequest demoHash demoConfig ⟨7, 1001, fun _ => 0, none⟩
          demoJoined).bot.timers = demoJoined.timers) :=
  ⟨(join_replaces_session demoHash demoConfig ⟨7, 1001, fun _ => 0, some 51⟩ demoJoined
      ⟨1000, 0, 0⟩ (by decide) demoJoined_reachable rfl).1 51 rfl,
    (join_replaces_session demoHash demoConfig ⟨7, 1001, fun _ => 0, none⟩ demoJoined
      ⟨1000, 0, 0⟩ (by decide) demoJoined_reachable rfl).2 rfl⟩

/-- C6, as stated, fails: on the last question, the expected token yields one approval
when the display call succeeds, and one decline and one ban (no approval) when the
display call fails. -/
theorem display_failure_changes_outcome :
    demoAdvanced.statusMap 7 = some ⟨1000, 1, 0⟩ ∧
      membershipCalls (handleCallbackQuery demoHash demoConfig (demoPress "#Blue1000" false)
        demoAdvanced).bot.calls = [.ApproveChatJoinRequest (-1001) 7] ∧
      membershipCalls (handleCallbackQuery demoHash demoConfig (demoPress "#Blue1000" true)
        demoAdvanced).bot.calls =
          [.DeclineChatJoinRequest (-1001) 7, .BanChatMember (-1001) 7 4605] ∧
      membershipCalls (handleCallbackQuery demoHash demoConfig (demoPress "#Blue1000" true)
        demoAdvanced).bot.calls ≠
          membershipCalls (handleCallbackQuery demoHash demoConfig (demoPress "#Blue1000" false)
            demoAdvanced).bot.calls := by
  decide

/-- C6, amended: in a reachable state with a session for the requester, a wrong token
removes the session and issues one decline and one ban whether or not the display call
fails; the expected token with a failing display call removes the session and issues
one decline and one ban; the expected token with a successful display call issues one
approval and removes the session on the last question, and on an earlier question
issues no membership action and keeps the session, advanced by one. -/
theorem outcome_by_token_and_display (H : String → String) (cfg : Config) (ctx : CallbackCtx)
    (b : Bot) (st : status) (cur : Question) (hb : Reachable H cfg b)
    (hu : b.statusMap ctx.userId = some st)
    (hq : cfg.Questions[st.questionIndex]? = some cur) :
    (ctx.data ≠ token H cur.Answer st.startTime ∨ ctx.editFails = true →
      (handleCallbackQuery H cfg ctx b).bot.statusMap ctx.userId = none ∧
        membershipCalls (handleCallbackQuery H cfg ctx b).bot.calls =
          membershipCalls b.calls ++ [.DeclineChatJoinRequest cfg.ChatID ctx.userId,
            .BanChatMember cfg.ChatID ctx.userId (wrapInt64 (ctx.now + cfg.BanTime))]) ∧
      (ctx.data = token H cur.Answer st.startTime → ctx.editFails = false →
        cfg.Questions.length ≤ st.questionIndex + 1 →
        (handleCallbackQuery H cfg ctx b).bot.statusMap ctx.userId = none ∧
          membershipCalls (handleCallbackQuery H cfg ctx b).bot.calls =
            membershipCalls b.calls ++ [.ApproveChatJoinRequest cfg.ChatID ctx.userId]) ∧
      (ctx.data = token H cur.Answer st.startTime → ctx.editFails = false →
        st.questionIndex + 1 < cfg.Questions.length →
        (handleCallbackQuery H cfg ctx b).bot.statusMap ctx.userId =
            some { st with questionIndex := st.questionIndex + 1 } ∧
          membershipCalls (handleCallbackQuery H cfg ctx b).bot.calls =
            membershipCalls b.calls) := by
  obtain ⟨t, ht, harm, _⟩ := (reachable_inv hb).1 _ st hu
  refine ⟨?_, ?_, ?_⟩
  · intro hor
    by_cases hd : ctx.data = token H cur.Answer st.startTime
    · have hf : ctx.editFails = true := hor.resolve_left (fun h => h hd)
      by_cases hlast : cfg.Questions.length ≤ st.questionIndex + 1
      · rw [handleCallbackQuery_last H cfg ctx hu hq ht harm hd hlast]
        simp [hf, deleteStatusAndDecline, hu, membershipCalls, Call.isMembership]
      · have hlt : st.questionIndex + 1 < cfg.Questions.length := by omega
        rw [handleCallbackQuery_advance H cfg ctx hu hq ht harm hd
          (List.getElem?_eq_getElem hlt)]
        simp [hf, deleteStatusAndDecline, membershipCalls, Call.isMembership]
    · rw [handleCallbackQuery_wrong H cfg ctx hu hq ht harm hd]
      simp [deleteStatusAndDecline, hu, membershipCalls, Call.isMembership]
  · intro hd hf hlast
    rw [handleCallbackQuery_last H cfg ctx hu hq ht harm hd hlast]
    simp [hf, deleteStatusAndApprove, hu, membershipCalls, Call.isMembership]
  · intro hd hf hlt
    rw [handleCallbackQuery_advance H cfg ctx hu hq ht harm hd (List.getElem?_eq_getElem hlt)]
    simp [hf, membershipCalls, Call.isMembership]

theorem outcome_by_token_and_display_witness :
    ((handleCallbackQuery demoHash demoConfig (demoPress "#Blue1000" true)
          demoAdvanced).bot.statusMap 7 = none ∧
        membershipCalls (handleCallbackQuery demoHash demoConfig (demoPress "#Blue1000" true)
          demoAdvanced).bot.calls = membershipCalls demoAdvanced.calls ++
            [.DeclineChatJoinRequest (-1001) 7, .BanChatMember (-1001) 7 4605]) ∧
      ((handleCallbackQuery demoHash demoConfig (demoPress "#Blue1000" false)
          demoAdvanced).bot.statusMap 7 = none ∧
        membershipCalls (handleCallbackQuery demoHash demoConfig (demoPress "#Blue1000" false)
          demoAdvanced).bot.calls = membershipCalls demoAdvanced.calls ++
            [.ApproveChatJoinRequest (-1001) 7]) ∧
      ((handleCallbackQuery demoHash demoConfig (demoPress "#Paris1000" false)
          demoJoined).bot.statusMap 7 = some ⟨1000, 1, 0⟩ ∧
        membershipCalls (handleCallbackQuery demoHash demoConfig (demoPress "#Paris1000" false)
          demoJoined).bot.calls = membershipCalls demoJoined.calls) :=
  ⟨(outcome_by_token_and_display demoHash demoConfig (demoPress "#Blue1000" true) demoAdvanced
      ⟨1000, 1, 0⟩ ⟨"Colour of the sky?", "Blue", ["Blue", "Red"]⟩
      (Reachable.next _ demoJoined_reachable) rfl rfl).1 (Or.inr rfl),
    (outcome_by_token_and_display demoHash demoConfig (demoPress "#Blue1000" false) demoAdvanced
      ⟨1000, 1, 0⟩ ⟨"Colour of the sky?", "Blue", ["Blue", "Red"]⟩
      (Reachable.next _ demoJoined_reachable) rfl rfl).2.1 rfl rfl (by decide),
    (outcome_by_token_and_display demoHash demoConfig (demoPress "#Paris1000" false) demoJoined
      ⟨1000, 0, 0⟩ ⟨"Capital of France?", "Paris", ["Paris", "Berlin"]⟩
      demoJoined_reachable rfl rfl).2.2 rfl rfl (by decide)⟩

/-- C7, as stated, fails: after requester 7 answers the first question correctly the
session still holds handle 0, the timer table is the one from before the answer (one
timer, armed at the join, none added), and that timer can still fire and decline. -/
theorem advance_keeps_deadline :
    demoJoined.statusMap 7 = some ⟨1000, 0, 0⟩ ∧
      demoAdvanced.statusMap 7 = some ⟨1000, 1, 0⟩ ∧
      demoAdvanced.timers = demoJoined.timers ∧
      demoAdvanced.timers = [⟨60000000000, 7, 50, .armed⟩] ∧
      (fireTimer demoConfig 1030 0 demoAdvanced).statusMap 7 = none ∧
      membershipCalls (fireTimer demoConfig 1030 0 demoAdvanced).calls =
        [.DeclineChatJoinRequest (-1001) 7, .BanChatMember (-1001) 7 4630] := by
  decide

/-- C7, amended: in a reachable state with a session at a question that is not the
last, a press carrying the expected token whose display call succeeds leaves the timer
table unchanged (no timer is stopped, none is created), the session keeps its handle,
and the timer behind that handle is still armed. -/
theorem advance_leaves_timer (H : String → String) (cfg : Config) (ctx : CallbackCtx)
    (b : Bot) (st : status) (cur : Question) (hb : Reachable H cfg b)
    (hu : b.statusMap ctx.userId = some st)
    (hq : cfg.Questions[st.questionIndex]? = some cur)
    (hlt : st.questionIndex + 1 < cfg.Questions.length)
    (hd : ctx.data = token H cur.Answer st.startTime) (hok : ctx.editFails = false) :
    (handleCallbackQuery H cfg ctx b).bot.timers = b.timers ∧
      (handleCallbackQuery H cfg ctx b).bot.statusMap ctx.userId =
        some ⟨st.startTime, st.questionIndex + 1, st.timer⟩ ∧
      ∃ t, (handleCallbackQuery H cfg ctx b).bot.timers[st.timer]? = some t ∧
        t.state = .armed := by
  obtain ⟨t, ht, harm, _⟩ := (reachable_inv hb).1 _ st hu
  rw [handleCallbackQuery_advance H cfg ctx hu hq ht harm hd (List.getElem?_eq_getElem hlt)]
  simp only [hok, Bool.false_eq_true, if_false]
  exact ⟨rfl, by simp, t, ht, harm⟩

theorem advance_leaves_timer_witness :
    (handleCallbackQuery demoHash demoConfig (demoPress "#Paris1000" false)
        demoJoined).bot.timers = demoJoined.timers ∧
      (handleCallbackQuery demoHash demoConfig (demoPress "#Paris1000" false)
        demoJoined).bot.statusMap 7 = some ⟨1000, 1, 0⟩ ∧
      ∃ t, (handleCallbackQuery demoHash demoConfig (demoPress "#Paris1000" false)
        demoJoined).bot.timers[0]? = some t ∧ t.state = .armed :=
  advance_leaves_timer demoHash demoConfig (demoPress "#Paris1000" false) demoJoined
    ⟨1000, 0, 0⟩ ⟨"Capital of France?", "Paris", ["Paris", "Berlin"]⟩ demoJoined_reachable
    rfl rfl (by decide) rfl rfl

/-- C8, as stated, fails: for the question with answer "Paris" and choices "Paris",
"Berlin", the challenge shown on join has three entries, two of them carrying the
correct answer. -/
theorem paris_challenge_has_three_choices :
    demoConfig.Questions[0]? = some ⟨"Capital of France?", "Paris", ["Paris", "Berlin"]⟩ ∧
      displayTexts (lastKeyboard demoJoined.calls) = ["Paris", "Berlin", "Paris"] ∧
      (lastKeyboard demoJoined.calls).length = 3 ∧
      (lastKeyboard demoJoined.calls).length ≠ 2 ∧
      (displayTexts (lastKeyboard demoJoined.calls)).count "Paris" = 2 := by
  decide

/-- C8, amended: the display texts of the challenge built on join (for question 0, in
any state and for any configuration with a first question) and of the challenge built
on advance (for question `q + 1`, display call succeeding) are a permutation of the
list made of the correct answer followed by the configured choices, repetitions kept;
the challenge has one entry more than the configured choices, and the number of entries
carrying the correct answer is one more than the number of times the answer occurs
among the configured choices. -/
theorem challenge_texts_perm (H : String → String) (cfg : Config) :
    (∀ (jc : JoinCtx) (b0 : Bot) (first : Question), cfg.Questions[0]? = some first →
      (displayTexts (lastKeyboard (handleNewChatJoinRequest H cfg jc b0).bot.calls)).Perm
          (first.Answer :: first.Choices) ∧
        (lastKeyboard (handleNewChatJoinRequest H cfg jc b0).bot.calls).length =
          first.Choices.length + 1 ∧
        (displayTexts (lastKeyboard (handleNewChatJoinRequest H cfg jc b0).bot.calls)).count
          first.Answer = first.Choices.count first.Answer + 1) ∧
      (∀ (ctx : CallbackCtx) (b : Bot) (st : status) (cur question : Question),
        Reachable H cfg b → b.statusMap ctx.userId = some st →
        cfg.Questions[st.questionIndex]? = some cur →
        cfg.Questions[st.questionIndex + 1]? = some question →
        ctx.data = token H cur.Answer st.startTime → ctx.editFails = false →
        (displayTexts (lastKeyboard (handleCallbackQuery H cfg ctx b).bot.calls)).Perm
            (question.Answer :: question.Choices) ∧
          (lastKeyboard (handleCallbackQuery H cfg ctx b).bot.calls).length =
            question.Choices.length + 1 ∧
          (displayTexts (lastKeyboard (handleCallbackQuery H cfg ctx b).bot.calls)).count
            question.Answer = question.Choices.count question.Answer + 1) := by
  have hkb : ∀ (rnd : Nat → Nat) (q : Question) (t : Int),
      (displayTexts (inlineKeyboard H (shuffledChoices rnd q) t)).Perm
          (q.Answer :: q.Choices) ∧
        (inlineKeyboard H (shuffledChoices rnd q) t).length = q.Choices.length + 1 ∧
        (displayTexts (inlineKeyboard H (shuffledChoices rnd q) t)).count q.Answer =
          q.Choices.count q.Answer + 1 := by
    intro rnd q t
    have hp : (shuffledChoices rnd q).Perm (q.Answer :: q.Choices) := shuffle_perm _ _
    rw [displayTexts_inlineKeyboard]
    refine ⟨hp, ?_, ?_⟩
    · simp [inlineKeyboard, hp.length_eq]
    · rw [hp.count_eq, List.count_cons_self]
  constructor
  · intro jc b0 first hfirst
    have hjoin : lastKeyboard (handleNewChatJoinRequest H cfg jc b0).bot.calls =
        inlineKeyboard H (shuffledChoices jc.rnd first) jc.now := by
      unfold handleNewChatJoinRequest
      rw [hfirst]
      cases jc.sent <;> simp [Bot.afterFunc]
    rw [hjoin]
    exact hkb _ _ _
  · intro ctx b st cur question hb hu hq hnext hd hok
    obtain ⟨t, ht, harm, _⟩ := (reachable_inv hb).1 _ st hu
    have hadv : lastKeyboard (handleCallbackQuery H cfg ctx b).bot.calls =
        inlineKeyboard H (shuffledChoices ctx.rnd question) st.startTime := by
      rw [handleCallbackQuery_advance H cfg ctx hu hq ht harm hd hnext]
      simp [hok]
    rw [hadv]
    exact hkb _ _ _

theorem challenge_texts_perm_witness :
    ((displayTexts (lastKeyboard (handleNewChatJoinRequest demoHash demoSingle demoJoin
            NewBot).bot.calls)).Perm ["4", "3", "5"] ∧
        (lastKeyboard (handleNewChatJoinRequest demoHash demoSingle demoJoin
            NewBot).bot.calls).length = 3 ∧
        (displayTexts (lastKeyboard (handleNewChatJoinRequest demoHash demoSingle demoJoin
            NewBot).bot.calls)).count "4" = 1) ∧
      ((displayTexts (lastKeyboard demoJoined.calls)).Perm ["Paris", "Paris", "Berlin"] ∧
        (lastKeyboard demoJoined.calls).length = 3 ∧
        (displayTexts (lastKeyboard demoJoined.calls)).count "Paris" = 2) ∧
      ((displayTexts (lastKeyboard demoAdvanced.calls)).Perm ["Blue", "Blue", "Red"] ∧
        (lastKeyboard demoAdvanced.calls).length = 3 ∧
        (displayTexts (lastKeyboard demoAdvanced.calls)).count "Blue" = 2) :=
  ⟨(challenge_texts_perm demoHash demoSingle).1 demoJoin NewBot
      ⟨"Two plus two?", "4", ["3", "5"]⟩ rfl,
    (challenge_texts_perm demoHash demoConfig).1 demoJoin NewBot
      ⟨"Capital of France?", "Paris", ["Paris", "Berlin"]⟩ rfl,
    (challenge_texts_perm demoHash demoConfig).2 (demoPress "#Paris1000" false) demoJoined
      ⟨1000, 0, 0⟩ ⟨"Capital of France?", "Paris", ["Paris", "Berlin"]⟩
      ⟨"Colour of the sky?", "Blue", ["Blue", "Red"]⟩ demoJoined_reachable rfl rfl rfl rfl rfl⟩

end Captcha
